import Mathlib

/-!
Verification of the A2A protocol client and surrounding trading code of this
repository (frontend/src/lib/onekeySdkUtils.ts, frontend/src/lib/tradingAnalysis.ts,
and the hardware-wallet module).  Each definition is a shallow embedding of the
corresponding TypeScript function; file/line references point into the source.
-/

namespace A2A

/-- JSON values as produced by the JavaScript JSON library.  Numbers are
modelled as integers: every numeric field the client inspects (error codes,
request identifiers, capability flags) is integral in the protocol. -/
inductive Json where
  | null
  | bool (b : Bool)
  | num (n : Int)
  | str (s : String)
  | arr (elems : List Json)
  | obj (fields : List (String × Json))

/-- Property lookup on a JavaScript object literal (field list).  Assumes the
parser produced distinct keys, as JSON.parse does after last-wins collapsing. -/
def lookupField : List (String × Json) → String → Option Json
  | [], _ => none
  | kv :: rest, k => if kv.1 == k then some kv.2 else lookupField rest k

/-- JavaScript property access `v[k]`: `some` when the property exists,
`none` for the JavaScript `undefined` (including access on non-objects). -/
def jsGetField : Json → String → Option Json
  | Json.obj fields, k => lookupField fields k
  | _, _ => none

/-- JavaScript truthiness of a JSON value: `null`, `false`, `0` and the empty
string are falsy, everything else is truthy. -/
def jsTruthy : Json → Bool
  | Json.null => false
  | Json.bool b => b
  | Json.num n => n != 0
  | Json.str s => s != ""
  | Json.arr _ => true
  | Json.obj _ => true

/-- Truthiness of an optional property (`undefined` is falsy). -/
def optTruthy : Option Json → Bool
  | none => false
  | some v => jsTruthy v

/-- Client-side representation of a JSON-RPC error: the `RpcError` class of
onekeySdkUtils.ts lines 376-386 (the opaque `data` payload is omitted; no claim
inspects it). -/
structure RpcErr where
  code : Int
  message : String

/-! ## Stream decoder (`_handleStreamingResponse`, onekeySdkUtils.ts 598-717)

The SSE byte stream arrives as text chunks (after `TextDecoderStream`); the
decoder keeps an accumulation buffer, strips carriage returns, splits on the
blank-line delimiter `"\n\n"`, keeps the trailing partial frame buffered, and
processes every complete frame.  Text is modelled as `List Char`. -/

/-- The global `\r` removal `buffer.replace(/\r/g, "")` (line 641). -/
def stripCR (l : List Char) : List Char := l.filter (fun c => c != '\r')

/-- `buffer.split("\n\n")` followed by `buffer = lines.pop() || ""` (lines
641-642): returns the complete frames (all split segments but the last) and
the retained partial remainder (the last segment). -/
def splitFrames : List Char → List (List Char) × List Char
  | [] => ([], [])
  | [c] => ([], [c])
  | c1 :: c2 :: rest =>
    if c1 == '\n' && c2 == '\n' then
      let p := splitFrames rest
      ([] :: p.1, p.2)
    else
      let p := splitFrames (c2 :: rest)
      match p.1 with
      | [] => ([], c1 :: p.2)
      | f :: fs => ((c1 :: f) :: fs, p.2)

/-- JavaScript `String.prototype.trim` restricted to the whitespace characters
that can actually occur in a frame (space, tab, newline, carriage return). -/
def isJsWhitespace (c : Char) : Bool := c == ' ' || c == '\t' || c == '\n' || c == '\r'

/-- `dataLine.trim()` (line 645). -/
def jsTrim (l : List Char) : List Char :=
  ((l.dropWhile isJsWhitespace).reverse.dropWhile isJsWhitespace).reverse

/-- The structural validation of lines 652-656: the parsed value must be an
object whose `jsonrpc` property equals the string `"2.0"`. -/
def isValidEnvelope (j : Json) : Bool :=
  match j with
  | Json.obj fields =>
    match lookupField fields "jsonrpc" with
    | some (Json.str s) => s == "2.0"
    | _ => false
  | _ => false

/-- Processing of one complete frame (lines 643-704), yielding the events it
contributes to the stream.  `parse` models the external `JSON.parse`, returning
`none` when parsing throws.  Faithful to the source, every failure path
continues the stream: in particular the `throw new RpcError` for a frame with a
populated `error` field (line 675) is lexically inside the `try` block whose
`catch (e)` (line 693) merely logs, so an error frame contributes no event and
does NOT terminate the iteration. -/
def processFrame (parse : List Char → Option Json) (message : List Char) : List Json :=
  if ("data: ".data).isPrefixOf message then
    let dataLine := jsTrim (message.drop 6)
    if dataLine.isEmpty then []
    else
      match parse dataLine with
      | none => []
      | some parsedData =>
        if !isValidEnvelope parsedData then []
        else if optTruthy (jsGetField parsedData "error") then []
        else
          match jsGetField parsedData "result" with
          | some Json.null => []
          | some v => [v]
          | none => []
  else []

/-- Events contributed by a list of complete frames, in order (the
`for (const message of lines)` loop, line 643). -/
def framesEvents (parse : List Char → Option Json) : List (List Char) → List Json
  | [] => []
  | f :: fs => processFrame parse f ++ framesEvents parse fs

/-- The `while (true) { reader.read() ... }` loop (lines 627-706): the first
argument is the retained buffer; each chunk is appended, carriage returns are
stripped, complete frames are processed, and the remainder is carried over.
On end of stream a non-empty leftover is only logged and discarded. -/
def decodeLoop (parse : List Char → Option Json) : List Char → List (List Char) → List Json
  | _, [] => []
  | st, ch :: rest =>
    let p := splitFrames (stripCR (st ++ ch))
    framesEvents parse p.1 ++ decodeLoop parse p.2 rest

/-- The event sequence `_handleStreamingResponse` yields for a given sequence
of received text chunks. -/
def handleStreamingResponse (parse : List Char → Option Json) (chunks : List (List Char)) : List Json :=
  decodeLoop parse [] chunks

/-- Concatenation of the received chunks: the whole payload. -/
def joinChunks : List (List Char) → List Char
  | [] => []
  | c :: cs => c ++ joinChunks cs

/-- A wire frame carrying one SSE data line: the `data: ` marker followed by
the payload text (terminated on the wire by the blank-line delimiter). -/
def dataFrame (line : List Char) : List Char := "data: ".data ++ line

/-! ## Envelope handling (`_handleJsonResponse`, onekeySdkUtils.ts 507-591)

With the axios transport `_makeHttpRequest` only returns 2xx responses (axios
rejects everything else), so `_handleJsonResponse` always runs with
`response.ok` true, and its body is `JSON.stringify(axiosResponse.data)`,
which re-parses to the same value; the embedding therefore takes the parsed
body directly. -/

/-- Error built at lines 558-564 from a truthy `error` member of the envelope:
`code` and `message` are read off the error object; a missing or non-conforming
member reads as the JavaScript `undefined`, modelled by the defaults `0` / `""`
(no claim exercises that corner). -/
def rpcErrorOfJson (errVal : Json) : RpcErr :=
  { code :=
      match jsGetField errVal "code" with
      | some (Json.num c) => c
      | _ => 0,
    message :=
      match jsGetField errVal "message" with
      | some (Json.str m) => m
      | _ => "" }

/-- `result || null` (line 569): a present truthy result is returned as is;
an absent result (`undefined`) and any falsy result collapse to `null`. -/
def resultOrNull (r : Option Json) : Json :=
  match r with
  | some v => if jsTruthy v then v else Json.null
  | none => Json.null

/-- The success path of `_handleJsonResponse` (lines 540-569) on the parsed
response body: structural validation (`jsonrpc === "2.0"` on an object),
then the truthy-`error` check, then `result || null`. -/
def handleJsonEnvelope (body : Json) : Except RpcErr Json :=
  if !isValidEnvelope body then
    Except.error { code := -32603,
                   message := "Invalid JSON-RPC response structure received from server." }
  else
    match jsGetField body "error" with
    | some e =>
      if jsTruthy e then Except.error (rpcErrorOfJson e)
      else Except.ok (resultOrNull (jsGetField body "result"))
    | none => Except.ok (resultOrNull (jsGetField body "result"))

/-! ## Transport failure path (`_makeHttpRequest`, onekeySdkUtils.ts 431-501)

`axios.post` resolves only for 2xx statuses; any other status rejects with an
`AxiosError` carrying the response, which the `catch (networkError)` block
(lines 472-500) converts into an `RpcError`. -/

/-- An HTTP response as seen by axios: status, status text, and the parsed
JSON body. -/
structure HttpResponse where
  status : Int
  statusText : String
  data : Json

/-- The `catch` block of `_makeHttpRequest` for an axios error that carries a
response (lines 479-499): the status-derived code/message are superseded by a
truthy `code` / `message` found in an `error` member of the response body
(`errorObj.code || statusCode`, `errorObj.message || errorMessage`; `0` and
the empty string are falsy and keep the defaults), and the final message is
prefixed with `Network error: ` by the `throw` at lines 495-499. -/
def axiosCatchError (resp : HttpResponse) : RpcErr :=
  let statusCode : Int := resp.status
  let errorMessage : String := "HTTP " ++ toString resp.status ++ ": " ++ resp.statusText
  let code :=
    match jsGetField resp.data "error" with
    | some errObj =>
      match jsGetField errObj "code" with
      | some (Json.num c) => if c == 0 then statusCode else c
      | _ => statusCode
    | none => statusCode
  let message :=
    match jsGetField resp.data "error" with
    | some errObj =>
      match jsGetField errObj "message" with
      | some (Json.str m) => if m == "" then errorMessage else m
      | _ => errorMessage
    | none => errorMessage
  { code := code, message := "Network error: " ++ message }

/-- `_makeHttpRequest` as a function of the server's HTTP answer: a 2xx status
is wrapped into a `Response` and handed on, anything else throws the
`RpcError` built by the catch block. -/
def makeHttpRequest (resp : HttpResponse) : Except RpcErr HttpResponse :=
  if 200 ≤ resp.status && resp.status < 300 then Except.ok resp
  else Except.error (axiosCatchError resp)

/-- `getTask` (onekeySdkUtils.ts 816-823): one `_makeHttpRequest` round trip
followed by `_handleJsonResponse`.  All the other single-call operations
(`sendTask`, `cancelTask`, push-notification get/set) share this shape. -/
def getTask (resp : HttpResponse) : Except RpcErr Json :=
  match makeHttpRequest resp with
  | Except.error e => Except.error e
  | Except.ok r => handleJsonEnvelope r.data

/-! ## Request identifiers (`_generateRequestId`, onekeySdkUtils.ts 412-422) -/

/-- A JSON-RPC request identifier: `crypto.randomUUID()` yields a string,
the `Date.now()` fallback a number. -/
inductive RequestId where
  | str (s : String)
  | num (n : Nat)

/-- `_generateRequestId` at the `call`-th invocation of a public operation:
`randomUUID` models the platform token source (value drawn at that call) and
`dateNow` the millisecond clock read at that call. -/
def generateRequestId (hasRandomUUID : Bool) (randomUUID : Nat → String)
    (dateNow : Nat → Nat) (call : Nat) : RequestId :=
  if hasRandomUUID then RequestId.str (randomUUID call) else RequestId.num (dateNow call)

/-! ## Agent-card cache (`agentCard`, onekeySdkUtils.ts 727-764)

`agentCard()` checks `this.cachedAgentCard`, and when it is null awaits an
axios GET and then writes the cache.  The check and the write are separated by
the await, and the source keeps no pending-fetch token, so the interleaving of
several concurrent calls matters.  Each call is a two-step process: reading
the cache (start) and resuming after the fetch resolves; a schedule says which
call runs at each step.  `fetchCount` counts issued network fetches; the fetch
always succeeds with `card` (the scenario of the claim). -/

inductive CallState where
  | notStarted
  | fetching
  | finished
deriving DecidableEq

structure CacheWorld where
  cache : Option Json
  fetchCount : Nat

/-- One scheduler step of a single `agentCard()` call: at `notStarted` the
call returns the cached card if present, otherwise issues the fetch; at
`fetching` the awaited fetch resolves and the cache is written. -/
def stepCall (card : Json) (w : CacheWorld) (s : CallState) : CacheWorld × CallState :=
  match s with
  | CallState.notStarted =>
    match w.cache with
    | some _ => (w, CallState.finished)
    | none => ({ w with fetchCount := w.fetchCount + 1 }, CallState.fetching)
  | CallState.fetching => ({ w with cache := some card }, CallState.finished)
  | CallState.finished => (w, CallState.finished)

/-- Run a schedule (list of call indices) over a pool of calls. -/
def runSchedule (card : Json) : CacheWorld → List CallState → List Nat → CacheWorld × List CallState
  | w, cs, [] => (w, cs)
  | w, cs, i :: rest =>
    let s := cs.getD i CallState.finished
    let p := stepCall card w s
    runSchedule card p.1 (cs.set i p.2) rest

/-- The schedule that runs calls `start, start+1, …` sequentially: each call
takes both of its steps before the next call starts. -/
def seqFrom (start : Nat) : Nat → List Nat
  | 0 => []
  | k + 1 => start :: start :: seqFrom (start + 1) k

/-! ## Capability probing (`supports`, onekeySdkUtils.ts 912-931) -/

/-- `card.capabilities?.streaming` coerced with `!!` (lines 918, 920): the
optional chain yields `undefined` when `capabilities` is absent or null, and
property access on a non-object also reads as `undefined`; `!!` is JavaScript
truthiness. -/
def capFlag (card : Json) (flagName : String) : Bool :=
  match jsGetField card "capabilities" with
  | none => false
  | some caps => optTruthy (jsGetField caps flagName)

/-- `supports(capability)`: awaits `agentCard()` (whose outcome is the
`agentCardResult` argument) inside a `try`; the `catch` returns `false`, the
switch reads the matching flag, and the default branch returns `false`. -/
def supports (agentCardResult : Except RpcErr Json) (capability : String) : Except RpcErr Bool :=
  match agentCardResult with
  | Except.error _ => Except.ok false
  | Except.ok card =>
    if capability == "streaming" then Except.ok (capFlag card "streaming")
    else if capability == "pushNotifications" then Except.ok (capFlag card "pushNotifications")
    else Except.ok false

end A2A

namespace Wallet

/-- The mutable fields of `OneKeyHardwareWallet` (unnamed source file,
lines 25-31) that the guarded methods read. -/
structure WalletState where
  isConnected : Bool
  address : Option String
  connectId : Option String
  deviceId : Option String

/-- JavaScript truthiness of an optional string field: absent (`null`) and
the empty string are falsy. -/
def fieldTruthy : Option String → Bool
  | none => false
  | some s => s != ""

/-- Externally observable side effects of the signing methods, in program
order: routing the order through the aggregator (`placeOrder`), building and
serialising the transaction (`tx.build`), and the hardware-device signing
round trip (`signSuiTransaction`). -/
inductive WalletEffect where
  | placeOrder
  | buildTransaction
  | deviceSign
deriving DecidableEq

/-- The `TransactionData` fields `signAndExecuteTransaction` reads. -/
structure TransactionData where
  transactionType : String
  pair : String
  poolId : String
  amount : String
  baseCoinId : String
  quoteCoinId : String

/-- `signAndExecuteTransaction` (unnamed source, lines 100-173): the
not-connected guard runs before anything else; then the `poolId` truthiness
check, order routing (which throws when no route is found — `routesFound`
models the aggregator's answer), transaction build, the device-information
check, and the device signing call (`signResult` models the device's answer).
Returns the result together with the effect trace. -/
def signAndExecuteTransaction (w : WalletState) (td : TransactionData)
    (routesFound : Bool) (signResult : Option String) :
    Except String String × List WalletEffect :=
  if !(w.isConnected && fieldTruthy w.address) then
    (Except.error "Wallet not connected", [])
  else if td.poolId == "" then
    (Except.error "Pool ID is required for DeepBook transactions", [])
  else if !routesFound then
    (Except.error "No routes found for the order", [WalletEffect.placeOrder])
  else if !(fieldTruthy w.connectId && fieldTruthy w.deviceId) then
    (Except.error "Device connection information is missing",
     [WalletEffect.placeOrder, WalletEffect.buildTransaction])
  else
    match signResult with
    | some sig =>
      (Except.ok sig,
       [WalletEffect.placeOrder, WalletEffect.buildTransaction, WalletEffect.deviceSign])
    | none =>
      (Except.error "Failed to sign SUI transaction",
       [WalletEffect.placeOrder, WalletEffect.buildTransaction, WalletEffect.deviceSign])

/-- One entry of the action list consumed by `signAndExecuteSuiTransaction`. -/
structure TransferAction where
  action : String
  amount : String
  recipient : String

/-- `signAndExecuteSuiTransaction` (unnamed source, lines 175-252): the same
not-connected guard first, then the empty-list check, transaction build from
the transfer actions, the device-information check, and device signing. -/
def signAndExecuteSuiTransaction (w : WalletState) (actions : List TransferAction)
    (signResult : Option String) : Except String String × List WalletEffect :=
  if !(w.isConnected && fieldTruthy w.address) then
    (Except.error "Wallet not connected", [])
  else if actions.length == 0 then
    (Except.error "Transaction data is empty", [])
  else if !(fieldTruthy w.connectId && fieldTruthy w.deviceId) then
    (Except.error "Device connection information is missing", [WalletEffect.buildTransaction])
  else
    match signResult with
    | some sig =>
      (Except.ok sig, [WalletEffect.buildTransaction, WalletEffect.deviceSign])
    | none =>
      (Except.error "Failed to sign SUI transaction",
       [WalletEffect.buildTransaction, WalletEffect.deviceSign])

end Wallet

namespace Trading

/-- The market fields of one entry of the trading-pair map built by
`fetchTradingPairs` (tradingAnalysis.ts 54-105), plus the identifiers copied
into the transaction data.  JavaScript numbers are idealised as rationals;
the scoring formula uses only field arithmetic so the claimed integer bounds
are insensitive to the idealisation. -/
structure PairData where
  price : ℚ
  volume24h : ℚ
  marketCap : ℚ
  change24h : ℚ
  volatility : ℚ
  liquidity : ℚ
  poolId : String
  poolName : String
  baseCoinId : String
  quoteCoinId : String

/-- `Math.round`: round half toward positive infinity. -/
def jsRound (q : ℚ) : ℤ := ⌊q + 1/2⌋

/-- The weighted raw score of tradingAnalysis.ts lines 121-126. -/
def rawScore (pd : PairData) : ℚ :=
  pd.volume24h / 15000000 * 3
    + pd.change24h / 10 * 3
    + (1 - |pd.volatility - 0.05| / 0.05) * 2
    + pd.liquidity * 2

/-- `Math.min(Math.max(Math.round(rawScore), 0), 10)` (line 127). -/
def scoreOf (pd : PairData) : ℤ := min (max (jsRound (rawScore pd)) 0) 10

/-- The recommendation ladder of lines 130-141. -/
def recommendationOf (score : ℤ) : String :=
  if score ≥ 8 then "Strong Buy"
  else if score ≥ 6 then "Buy"
  else if score ≥ 4 then "Hold"
  else if score ≥ 2 then "Sell"
  else "Strong Sell"

/-- The transaction data prepared at lines 158-168 (the free-text analysis
strings are omitted; no claim reads them). -/
structure TxData where
  pair : String
  transactionType : String
  poolId : String
  poolName : String
  baseCoinId : String
  quoteCoinId : String

/-- The analysis result of lines 170-176. -/
structure AnalysisResult where
  pair : String
  score : ℤ
  recommendation : String
  transactionData : TxData

/-- Lookup of `tradingPairs[pair]` in the fetched map. -/
def lookupPair : List (String × PairData) → String → Option PairData
  | [], _ => none
  | kv :: rest, k => if kv.1 == k then some kv.2 else lookupPair rest k

/-- `analyzeTradingPair` (tradingAnalysis.ts 112-177) over the fetched
trading-pair map: throws when the pair is missing, otherwise computes the
clamped rounded score, the recommendation, and the transaction data whose
`transactionType` is `buy` exactly for `score >= 5` (line 163). -/
def analyzeTradingPair (pairs : List (String × PairData)) (pair : String) :
    Except String AnalysisResult :=
  match lookupPair pairs pair with
  | none => Except.error ("Trading pair " ++ pair ++ " not found")
  | some pd =>
    let score := scoreOf pd
    Except.ok
      { pair := pair
        score := score
        recommendation := recommendationOf score
        transactionData :=
          { pair := pair
            transactionType := if score ≥ 5 then "buy" else "sell"
            poolId := pd.poolId
            poolName := pd.poolName
            baseCoinId := pd.baseCoinId
            quoteCoinId := pd.quoteCoinId } }

end Trading

namespace A2A

/-! ## Concrete wire data used by the counterexamples and witnesses

`JSON.parse` is external to the repository; the decoder embeddings take it as
an oracle `parse : List Char → Option Json`.  The oracles below fix its value
on the concrete wire strings of the scenarios (and refuse everything else),
matching what the real parser returns on those strings. -/

/-- Wire text of a streamed error envelope. -/
def errLine : String :=
  "\x7b\"jsonrpc\":\"2.0\",\"id\":1,\"error\":\x7b\"code\":-32002,\"message\":\"task canceled\"\x7d\x7d"

/-- Parsed value of `errLine`. -/
def errLineJson : Json :=
  Json.obj [("jsonrpc", Json.str "2.0"), ("id", Json.num 1),
            ("error", Json.obj [("code", Json.num (-32002)), ("message", Json.str "task canceled")])]

/-- Wire text of a streamed result envelope. -/
def okLine : String :=
  "\x7b\"jsonrpc\":\"2.0\",\"id\":1,\"result\":\x7b\"id\":\"t1\",\"final\":true\x7d\x7d"

/-- The `result` member of `okLine`. -/
def okLineResult : Json := Json.obj [("id", Json.str "t1"), ("final", Json.bool true)]

/-- Parsed value of `okLine`. -/
def okLineJson : Json :=
  Json.obj [("jsonrpc", Json.str "2.0"), ("id", Json.num 1), ("result", okLineResult)]

/-- A second streamed result envelope, wire text. -/
def okLine2 : String :=
  "\x7b\"jsonrpc\":\"2.0\",\"id\":1,\"result\":\x7b\"id\":\"t1\",\"final\":false\x7d\x7d"

/-- The `result` member of `okLine2`. -/
def okLine2Result : Json := Json.obj [("id", Json.str "t1"), ("final", Json.bool false)]

/-- Parsed value of `okLine2`. -/
def okLine2Json : Json :=
  Json.obj [("jsonrpc", Json.str "2.0"), ("id", Json.num 1), ("result", okLine2Result)]

/-- Wire text that is not valid JSON: `JSON.parse` throws on it. -/
def badLine : String := "not-json"

/-- The parse oracle for the scenarios: real JSON values on the three wire
strings above, parse failure everywhere else. -/
def demoParse : List Char → Option Json := fun l =>
  if l = errLine.data then some errLineJson
  else if l = okLine.data then some okLineJson
  else if l = okLine2.data then some okLine2Json
  else none

/-- The SSE payload of the C1 scenario: an error frame followed by a result
frame. -/
def errThenOkPayload : List Char := ("data: " ++ errLine ++ "\n\ndata: " ++ okLine ++ "\n\n").data

/-- The HTTP answer of the C2 scenario: status 404 with the error envelope
`\x7b"error":\x7b"code":-32000,"message":"task not found"\x7d\x7d` as body. -/
def taskNotFoundResponse : HttpResponse :=
  { status := 404
    statusText := "Not Found"
    data := Json.obj [("error",
      Json.obj [("code", Json.num (-32000)), ("message", Json.str "task not found")])] }

/-- A well-formed response envelope whose `result` member is the falsy value
`false` (C7 scenario). -/
def falsyResultEnvelope : Json :=
  Json.obj [("jsonrpc", Json.str "2.0"), ("id", Json.num 1), ("result", Json.bool false)]

end A2A

/-! # Theorems -/

namespace A2A

/-- Unfolding of `splitFrames` at a frame delimiter. -/
theorem splitFrames_delim (c1 c2 : Char) (rest : List Char)
    (h : (c1 == '\n' && c2 == '\n') = true) :
    splitFrames (c1 :: c2 :: rest) = ([] :: (splitFrames rest).1, (splitFrames rest).2) := by
  simp [splitFrames, h]

/-- Unfolding of `splitFrames` away from a delimiter, no complete frame yet. -/
theorem splitFrames_nodelim_nil (c1 c2 : Char) (rest : List Char)
    (h : ¬(c1 == '\n' && c2 == '\n') = true)
    (hp : (splitFrames (c2 :: rest)).1 = []) :
    splitFrames (c1 :: c2 :: rest) = ([], c1 :: (splitFrames (c2 :: rest)).2) := by
  simp only [splitFrames, if_neg h]
  rw [hp]

/-- Unfolding of `splitFrames` away from a delimiter, first frame extended. -/
theorem splitFrames_nodelim_cons (c1 c2 : Char) (rest : List Char) (f : List Char)
    (fs : List (List Char))
    (h : ¬(c1 == '\n' && c2 == '\n') = true)
    (hp : (splitFrames (c2 :: rest)).1 = f :: fs) :
    splitFrames (c1 :: c2 :: rest) = ((c1 :: f) :: fs, (splitFrames (c2 :: rest)).2) := by
  simp only [splitFrames, if_neg h]
  rw [hp]

/-- When splitting produced no complete frame, the remainder is the input. -/
theorem splitFrames_empty_frames (s : List Char) (h : (splitFrames s).1 = []) :
    (splitFrames s).2 = s := by
  induction s using splitFrames.induct with
  | case1 => simp [splitFrames]
  | case2 c => simp [splitFrames]
  | case3 c1 c2 rest hd ih =>
    rw [splitFrames_delim c1 c2 rest hd] at h
    simp at h
  | case4 c1 c2 rest hd p hp ih =>
    rw [splitFrames_nodelim_nil c1 c2 rest hd hp]
    rw [ih hp]
  | case5 c1 c2 rest hd p f fs hp ih =>
    rw [splitFrames_nodelim_cons c1 c2 rest f fs hd hp] at h
    simp at h

/-- The retained remainder contains no frame delimiter: splitting it again
yields no complete frame. -/
theorem splitFrames_leftover (s : List Char) :
    splitFrames ((splitFrames s).2) = ([], (splitFrames s).2) := by
  induction s using splitFrames.induct with
  | case1 => simp [splitFrames]
  | case2 c => simp [splitFrames]
  | case3 c1 c2 rest hd ih =>
    rw [splitFrames_delim c1 c2 rest hd]
    exact ih
  | case4 c1 c2 rest hd p hp ih =>
    rw [splitFrames_nodelim_nil c1 c2 rest hd hp]
    have h2 := splitFrames_empty_frames (c2 :: rest) hp
    have hcons : (c1 : Char) :: (splitFrames (c2 :: rest)).2 = c1 :: c2 :: rest := by rw [h2]
    rw [hcons, splitFrames_nodelim_nil c1 c2 rest hd hp, h2]
  | case5 c1 c2 rest hd p f fs hp ih =>
    rw [splitFrames_nodelim_cons c1 c2 rest f fs hd hp]
    exact ih

/-- Characters of the retained remainder come from the input. -/
theorem mem_splitFrames_leftover (s : List Char) (c : Char) (h : c ∈ (splitFrames s).2) :
    c ∈ s := by
  induction s using splitFrames.induct with
  | case1 => simp [splitFrames] at h
  | case2 a => simp [splitFrames] at h; simp [h]
  | case3 c1 c2 rest hd ih =>
    rw [splitFrames_delim c1 c2 rest hd] at h
    simp only [List.mem_cons]
    exact Or.inr (Or.inr (ih h))
  | case4 c1 c2 rest hd p hp ih =>
    rw [splitFrames_nodelim_nil c1 c2 rest hd hp] at h
    simp only [List.mem_cons] at h ⊢
    rcases h with h | h
    · exact Or.inl h
    · have := ih h
      simp only [List.mem_cons] at this
      exact Or.inr this
  | case5 c1 c2 rest hd p f fs hp ih =>
    rw [splitFrames_nodelim_cons c1 c2 rest f fs hd hp] at h
    have := ih h
    simp only [List.mem_cons] at this ⊢
    exact Or.inr this

/-- Splitting a longer buffer extends the frames found in a prefix: the
frames of `s ++ t` are the frames of `s` followed by the frames of the
retained remainder of `s` glued to `t`.  This is the straddling-delimiter
property behind buffer reassembly. -/
theorem splitFrames_append (s t : List Char) :
    splitFrames (s ++ t) =
      ((splitFrames s).1 ++ (splitFrames ((splitFrames s).2 ++ t)).1,
       (splitFrames ((splitFrames s).2 ++ t)).2) := by
  induction s using splitFrames.induct with
  | case1 => simp [splitFrames]
  | case2 c => simp [splitFrames]
  | case3 c1 c2 rest hd ih =>
    rw [splitFrames_delim c1 c2 rest hd]
    have hc : (c1 :: c2 :: rest) ++ t = c1 :: c2 :: (rest ++ t) := by simp
    rw [hc, splitFrames_delim c1 c2 (rest ++ t) hd, ih]
    simp
  | case4 c1 c2 rest hd p hp ih =>
    rw [splitFrames_nodelim_nil c1 c2 rest hd hp]
    have h2 := splitFrames_empty_frames (c2 :: rest) hp
    simp only [List.nil_append]
    have hcons : (c1 :: (splitFrames (c2 :: rest)).2) ++ t = (c1 :: c2 :: rest) ++ t := by
      rw [h2]
    rw [hcons]
  | case5 c1 c2 rest hd p f fs hp ih =>
    rw [splitFrames_nodelim_cons c1 c2 rest f fs hd hp]
    have hc : (c1 :: c2 :: rest) ++ t = c1 :: c2 :: (rest ++ t) := by simp
    rw [hc]
    have hp2 : (splitFrames (c2 :: (rest ++ t))).1 =
        f :: (fs ++ (splitFrames ((splitFrames (c2 :: rest)).2 ++ t)).1) := by
      have hc2 : c2 :: (rest ++ t) = (c2 :: rest) ++ t := by simp
      rw [hc2, ih, hp]
      simp
    rw [splitFrames_nodelim_cons c1 c2 (rest ++ t) f
      (fs ++ (splitFrames ((splitFrames (c2 :: rest)).2 ++ t)).1) hd hp2]
    have hc2 : c2 :: (rest ++ t) = (c2 :: rest) ++ t := by simp
    rw [hc2, ih]
    simp

/-- Frame processing distributes over concatenation of frame lists. -/
theorem framesEvents_append (parse : List Char → Option Json) (a b : List (List Char)) :
    framesEvents parse (a ++ b) = framesEvents parse a ++ framesEvents parse b := by
  induction a with
  | nil => simp [framesEvents]
  | cons f fs ih => simp [framesEvents, ih]

/-- Carriage-return stripping distributes over concatenation. -/
theorem stripCR_append (a b : List Char) : stripCR (a ++ b) = stripCR a ++ stripCR b := by
  simp [stripCR, List.filter_append]

/-- Stripping is the identity on carriage-return-free text. -/
theorem stripCR_of_no_cr (a : List Char) (h : ∀ c ∈ a, (c != '\r') = true) : stripCR a = a := by
  simp [stripCR, List.filter_eq_self.mpr h]

/-- Stripped text is carriage-return free. -/
theorem no_cr_of_mem_stripCR (a : List Char) (c : Char) (h : c ∈ stripCR a) :
    (c != '\r') = true := by
  simp only [stripCR, List.mem_filter] at h
  exact h.2

/-- The decode loop started on a delimiter-free, carriage-return-free buffer
yields exactly the events of the complete frames of the whole remaining
input. -/
theorem decodeLoop_spec (parse : List Char → Option Json) (chs : List (List Char)) :
    ∀ st : List Char, (splitFrames st).1 = [] → stripCR st = st →
    decodeLoop parse st chs =
      framesEvents parse (splitFrames (st ++ stripCR (joinChunks chs))).1 := by
  induction chs with
  | nil =>
    intro st h1 h2
    simp [decodeLoop, joinChunks, stripCR, h1, framesEvents]
  | cons ch rest ih =>
    intro st h1 h2
    simp only [decodeLoop]
    have hstrip : stripCR (st ++ ch) = st ++ stripCR ch := by
      rw [stripCR_append, h2]
    rw [hstrip]
    set P := splitFrames (st ++ stripCR ch) with hP
    have hleft1 : (splitFrames P.2).1 = [] := by
      rw [hP, splitFrames_leftover]
    have hleft2 : stripCR P.2 = P.2 := by
      apply stripCR_of_no_cr
      intro c hc
      have hmem : c ∈ st ++ stripCR ch := mem_splitFrames_leftover _ c (hP ▸ hc)
      rcases List.mem_append.mp hmem with hmem | hmem
      · have hcs : c ∈ stripCR st := by rw [h2]; exact hmem
        exact no_cr_of_mem_stripCR st c hcs
      · exact no_cr_of_mem_stripCR ch c hmem
    rw [ih P.2 hleft1 hleft2]
    have hjoin : st ++ stripCR (joinChunks (ch :: rest)) =
        (st ++ stripCR ch) ++ stripCR (joinChunks rest) := by
      simp [joinChunks, stripCR_append, List.append_assoc]
    rw [hjoin, splitFrames_append (st ++ stripCR ch) (stripCR (joinChunks rest))]
    rw [← hP]
    simp [framesEvents_append]

/-- Claim C3: for every framed event payload and every way of splitting it
into chunks at arbitrary offsets — including splits in the middle of a frame
and in the middle of the blank-line delimiter — feeding the stream decoder
the chunks one at a time yields exactly the same sequence of event payloads,
in the same order, as feeding the whole payload as a single chunk.  Chunks
are quantified as arbitrary character lists (the byte-to-text reassembly of
multi-byte characters is done upstream by `TextDecoderStream`), and the
statement holds for every behaviour of the external `JSON.parse`. -/
theorem streaming_chunk_split_invariance (parse : List Char → Option Json)
    (chunks : List (List Char)) :
    handleStreamingResponse parse chunks = handleStreamingResponse parse [joinChunks chunks] := by
  unfold handleStreamingResponse
  rw [decodeLoop_spec parse chunks [] (by simp [splitFrames]) (by simp [stripCR])]
  rw [decodeLoop_spec parse [joinChunks chunks] [] (by simp [splitFrames]) (by simp [stripCR])]
  simp [joinChunks]

set_option maxRecDepth 8000 in
/-- Claim C1 (refuting the claimed behaviour): on a stream consisting of an
error frame followed by a result frame, `_handleStreamingResponse` still
yields the event of the later frame — the `throw new RpcError` for the error
frame (line 675) is caught by the frame-level `catch` (line 693), which only
logs, so the error neither fails nor terminates the sequence.  The decoded
event list is exactly the result of the frame AFTER the error frame. -/
theorem error_frame_does_not_terminate_stream :
    handleStreamingResponse demoParse [errThenOkPayload] = [okLineResult] := by
  rfl

/-- Claim C2 counterexample: for `getTask` against HTTP 404 with body
`\x7b"error":\x7b"code":-32000,"message":"task not found"\x7d\x7d`, the call does fail
with code `-32000`, but the message is `Network error: task not found` — the
`throw` at lines 495-499 prefixes the server message, so it is not surfaced
verbatim as the claim states. -/
theorem http_error_message_not_verbatim :
    getTask taskNotFoundResponse =
      Except.error { code := -32000, message := "Network error: task not found" } ∧
    "Network error: task not found" ≠ "task not found" :=
  ⟨rfl, by decide⟩

/-- Claim C2 as amended: when the server answers a single call with a non-2xx
status whose body carries an error envelope with a truthy code and message,
the call fails with an `RpcError` whose code is the server-supplied code
(superseding the status-derived one) and whose message is the server-supplied
message prefixed with `Network error: `. -/
theorem http_error_envelope_supersedes (resp : HttpResponse) (errObj : Json)
    (c : Int) (m : String)
    (hstatus : ¬(200 ≤ resp.status && resp.status < 300) = true)
    (herr : jsGetField resp.data "error" = some errObj)
    (hcode : jsGetField errObj "code" = some (Json.num c)) (hc : ¬c = 0)
    (hmsg : jsGetField errObj "message" = some (Json.str m)) (hm : ¬m = "") :
    getTask resp = Except.error { code := c, message := "Network error: " ++ m } := by
  unfold getTask makeHttpRequest axiosCatchError
  simp only [if_neg hstatus, herr, hcode, hmsg, beq_iff_eq, if_neg hc, if_neg hm]

/-- Witness for the amended C2 at the scenario input. -/
theorem http_error_envelope_supersedes_witness :
    getTask taskNotFoundResponse =
      Except.error { code := -32000, message := "Network error: " ++ "task not found" } :=
  http_error_envelope_supersedes taskNotFoundResponse
    (Json.obj [("code", Json.num (-32000)), ("message", Json.str "task not found")])
    (-32000) "task not found" (by decide) rfl rfl (by decide) rfl (by decide)

/-- A data line wrapped into a complete wire frame: marker, payload text,
blank-line delimiter. -/
def frameOnWire (line : List Char) : List Char := dataFrame line ++ ['\n', '\n']

/-- Splitting a buffer that begins with a newline-free segment followed by
the frame delimiter cuts exactly at the delimiter. -/
theorem splitFrames_framed (a : List Char) (rest : List Char)
    (ha : ∀ c ∈ a, ¬c = '\n') :
    splitFrames (a ++ '\n' :: '\n' :: rest) =
      (a :: (splitFrames rest).1, (splitFrames rest).2) := by
  induction a with
  | nil =>
    simp only [List.nil_append]
    rw [splitFrames_delim '\n' '\n' rest (by decide)]
  | cons c a2 ih =>
    have hc : ¬c = '\n' := ha c (List.mem_cons_self c a2)
    have hcond : ∀ d : Char, ¬(c == '\n' && d == '\n') = true := by
      intro d hcd
      rw [Bool.and_eq_true] at hcd
      exact hc (by simpa using hcd.1)
    have ha2 : ∀ c2 ∈ a2, ¬c2 = '\n' := fun c2 h2 => ha c2 (List.mem_cons_of_mem c h2)
    cases a2 with
    | nil =>
      simp only [List.nil_append, List.cons_append]
      have hp : (splitFrames ('\n' :: '\n' :: rest)).1 =
          [] :: (splitFrames rest).1 := by
        rw [splitFrames_delim '\n' '\n' rest (by decide)]
      rw [splitFrames_nodelim_cons c '\n' ('\n' :: rest) [] (splitFrames rest).1 (hcond '\n') hp]
      rw [splitFrames_delim '\n' '\n' rest (by decide)]
    | cons d a3 =>
      have hstep := ih ha2
      simp only [List.cons_append] at hstep ⊢
      rw [splitFrames_nodelim_cons c d (a3 ++ '\n' :: '\n' :: rest) (d :: a3)
        (splitFrames rest).1 (hcond d) (by rw [hstep])]
      rw [hstep]

/-- Characters of a chunk concatenation come from some chunk. -/
theorem mem_joinChunks (ls : List (List Char)) (c : Char) (h : c ∈ joinChunks ls) :
    ∃ l ∈ ls, c ∈ l := by
  induction ls with
  | nil => simp [joinChunks] at h
  | cons l ls2 ih =>
    simp only [joinChunks, List.mem_append] at h
    rcases h with h | h
    · exact ⟨l, List.mem_cons_self l ls2, h⟩
    · rcases ih h with ⟨l2, hl2, hc⟩
      exact ⟨l2, List.mem_cons_of_mem l hl2, hc⟩

/-- A sequence of newline-free data lines, framed and concatenated, splits
back into exactly those frames with an empty remainder. -/
theorem splitFrames_wire (lines : List (List Char))
    (h : ∀ l ∈ lines, ∀ c ∈ l, ¬c = '\n') :
    splitFrames (joinChunks (lines.map frameOnWire)) = (lines.map dataFrame, []) := by
  induction lines with
  | nil => simp [joinChunks, splitFrames]
  | cons l ls ih =>
    simp only [List.map_cons, joinChunks]
    have hshape : frameOnWire l ++ joinChunks (ls.map frameOnWire) =
        dataFrame l ++ '\n' :: '\n' :: joinChunks (ls.map frameOnWire) := by
      simp [frameOnWire, List.append_assoc]
    have hmarker : ∀ c ∈ dataFrame l, ¬c = '\n' := by
      intro c hc
      rcases List.mem_append.mp hc with hc | hc
      · intro he
        subst he
        revert hc
        decide
      · exact h l (List.mem_cons_self l ls) c hc
    rw [hshape, splitFrames_framed (dataFrame l) _ hmarker,
      ih (fun l2 h2 => h l2 (List.mem_cons_of_mem l h2))]

/-- Each frame of a valid batch contributes exactly one event. -/
theorem framesEvents_length_of_valid (parse : List Char → Option Json)
    (xs : List (List Char))
    (h : ∀ l ∈ xs, ∃ v, processFrame parse (dataFrame l) = [v]) :
    (framesEvents parse (xs.map dataFrame)).length = xs.length := by
  induction xs with
  | nil => simp [framesEvents]
  | cons l ls ih =>
    rcases h l (List.mem_cons_self l ls) with ⟨v, hv⟩
    simp only [List.map_cons, framesEvents, List.length_append, hv]
    rw [ih (fun l2 h2 => h l2 (List.mem_cons_of_mem l h2))]
    simp [Nat.add_comm]

/-- Claim C6: a single malformed frame (one whose payload fails to parse)
inside an otherwise valid stream of event frames is skipped and does not
abort the subscription: the decoded sequence is exactly the events of the
valid frames before and after it, so the yielded count equals N (the number
of valid event frames) and in particular is not below N−1.  Data lines are
single lines (newline-free) and carriage-return-free, `hvalid` says every
other frame parses to an envelope yielding exactly one event, and `hbad`
says the malformed frame yields none because parsing fails. -/
theorem malformed_frame_skipped (parse : List Char → Option Json)
    (pres posts : List (List Char)) (bad : List Char)
    (hchars : ∀ l ∈ pres ++ bad :: posts, ∀ c ∈ l, ¬c = '\n' ∧ ¬c = '\r')
    (hvalid : ∀ l ∈ pres ++ posts, ∃ v, processFrame parse (dataFrame l) = [v])
    (hbad : processFrame parse (dataFrame bad) = []) :
    handleStreamingResponse parse [joinChunks ((pres ++ bad :: posts).map frameOnWire)] =
      framesEvents parse (pres.map dataFrame) ++ framesEvents parse (posts.map dataFrame) ∧
    (handleStreamingResponse parse
        [joinChunks ((pres ++ bad :: posts).map frameOnWire)]).length =
      pres.length + posts.length := by
  have hpayload_cr : ∀ c ∈ joinChunks ((pres ++ bad :: posts).map frameOnWire),
      (c != '\r') = true := by
    intro c hc
    rcases mem_joinChunks _ c hc with ⟨fl, hfl, hcf⟩
    rcases List.mem_map.mp hfl with ⟨l, hl, rfl⟩
    simp only [frameOnWire, dataFrame, List.append_assoc, List.mem_append] at hcf
    rcases hcf with hcf | hcf | hcf
    · have hmk : ∀ x ∈ "data: ".data, (x != '\r') = true := by decide
      exact hmk c hcf
    · have := (hchars l hl c hcf).2
      simpa using this
    · have hnl : ∀ x ∈ ['\n', '\n'], (x != '\r') = true := by decide
      exact hnl c hcf
  have hdecomp : handleStreamingResponse parse
      [joinChunks ((pres ++ bad :: posts).map frameOnWire)] =
      framesEvents parse ((pres ++ bad :: posts).map dataFrame) := by
    unfold handleStreamingResponse decodeLoop
    rw [List.nil_append, stripCR_of_no_cr _ hpayload_cr]
    rw [splitFrames_wire (pres ++ bad :: posts) (fun l hl c hc => (hchars l hl c hc).1)]
    simp [decodeLoop]
  have hsplit : framesEvents parse ((pres ++ bad :: posts).map dataFrame) =
      framesEvents parse (pres.map dataFrame) ++ framesEvents parse (posts.map dataFrame) := by
    rw [List.map_append, framesEvents_append, List.map_cons]
    simp [framesEvents, hbad]
  constructor
  · rw [hdecomp, hsplit]
  · rw [hdecomp, hsplit]
    have h1 : ∀ l ∈ pres, ∃ v, processFrame parse (dataFrame l) = [v] :=
      fun l hl => hvalid l (List.mem_append.mpr (Or.inl hl))
    have h2 : ∀ l ∈ posts, ∃ v, processFrame parse (dataFrame l) = [v] :=
      fun l hl => hvalid l (List.mem_append.mpr (Or.inr hl))
    rw [List.length_append, framesEvents_length_of_valid parse pres h1,
      framesEvents_length_of_valid parse posts h2]

set_option maxRecDepth 8000 in
/-- Witness for C6: two valid result frames around one malformed frame decode
to exactly the two result events. -/
theorem malformed_frame_skipped_witness :
    handleStreamingResponse demoParse
        [joinChunks (([okLine.data] ++ badLine.data :: [okLine2.data]).map frameOnWire)] =
      framesEvents demoParse ([okLine.data].map dataFrame) ++
        framesEvents demoParse ([okLine2.data].map dataFrame) ∧
    (handleStreamingResponse demoParse
        [joinChunks (([okLine.data] ++ badLine.data :: [okLine2.data]).map frameOnWire)]).length =
      List.length [okLine.data] + List.length [okLine2.data] :=
  malformed_frame_skipped demoParse [okLine.data] [okLine2.data] badLine.data
    (by decide)
    (by
      intro l hl
      simp only [List.cons_append, List.nil_append, List.mem_cons,
        List.not_mem_nil, or_false] at hl
      rcases hl with rfl | rfl
      · exact ⟨okLineResult, by rfl⟩
      · exact ⟨okLine2Result, by rfl⟩)
    (by rfl)

/-- Claim C7 counterexample: a well-formed 2.0 envelope whose `result` field
is present with the falsy value `false` resolves to `null`, not to the result
field — `return jsonResponse.result || null` (line 569) collapses every falsy
result. -/
theorem falsy_result_returned_as_null :
    handleJsonEnvelope falsyResultEnvelope = Except.ok Json.null ∧
    jsGetField falsyResultEnvelope "result" = some (Json.bool false) ∧
    Json.null ≠ Json.bool false :=
  ⟨rfl, rfl, fun h => Json.noConfusion h⟩

/-- Claim C7 as amended: for a single call whose response body is a
well-formed envelope with protocol version `2.0` and no error field, the
operation resolves (never fails) with the envelope's `result` field when that
field is present and truthy; when the field is absent — or present but falsy
(`null`, `false`, `0`, `""`) — the call resolves with `null` rather than
failing. -/
theorem result_or_null_resolution (body : Json)
    (hval : isValidEnvelope body = true)
    (herr : jsGetField body "error" = none) :
    (∀ v, jsGetField body "result" = some v → jsTruthy v = true →
        handleJsonEnvelope body = Except.ok v) ∧
    (jsGetField body "result" = none → handleJsonEnvelope body = Except.ok Json.null) ∧
    (∀ v, jsGetField body "result" = some v → jsTruthy v = false →
        handleJsonEnvelope body = Except.ok Json.null) := by
  unfold handleJsonEnvelope
  rw [hval, herr]
  refine ⟨?_, ?_, ?_⟩
  · intro v hr ht
    rw [hr]
    simp [resultOrNull, ht]
  · intro hr
    rw [hr]
    simp [resultOrNull]
  · intro v hr ht
    rw [hr]
    simp [resultOrNull, ht]

/-- Witness for the amended C7: a truthy present result is returned as is,
and an absent result resolves to `null`. -/
theorem result_or_null_resolution_witness :
    handleJsonEnvelope okLineJson = Except.ok okLineResult ∧
    handleJsonEnvelope (Json.obj [("jsonrpc", Json.str "2.0"), ("id", Json.num 1)]) =
      Except.ok Json.null :=
  ⟨(result_or_null_resolution okLineJson rfl rfl).1 okLineResult rfl rfl,
   (result_or_null_resolution (Json.obj [("jsonrpc", Json.str "2.0"), ("id", Json.num 1)])
     rfl rfl).2.1 rfl⟩

/-- A list element fetched with a default is the default or a member. -/
theorem getD_mem_or_default (l : List CallState) :
    ∀ (i : Nat) (d : CallState), l.getD i d = d ∨ l.getD i d ∈ l := by
  induction l with
  | nil =>
    intro i d
    left
    cases i <;> rfl
  | cons a l2 ih =>
    intro i d
    cases i with
    | zero =>
      right
      simp [List.getD]
    | succ n =>
      rcases ih n d with h | h
      · left
        simpa [List.getD] using h
      · right
        have : (a :: l2).getD (n + 1) d = l2.getD n d := by simp [List.getD]
        rw [this]
        exact List.mem_cons_of_mem a h
/-- Once the cache holds the card and no call is mid-fetch, no further
scheduling changes the world: cache hits issue no fetch. -/
theorem runSchedule_cached (card : Json) (sched : List Nat) :
    ∀ (w : CacheWorld) (cs : List CallState), w.cache = some card →
    (∀ s ∈ cs, ¬s = CallState.fetching) →
    (runSchedule card w cs sched).1 = w := by
  induction sched with
  | nil =>
    intro w cs h1 h2
    rfl
  | cons i rest ih =>
    intro w cs h1 h2
    have hs : ¬(cs.getD i CallState.finished) = CallState.fetching := by
      rcases getD_mem_or_default cs i CallState.finished with h | h
      · rw [h]
        decide
      · exact h2 _ h
    have hstep : stepCall card w (cs.getD i CallState.finished) = (w, CallState.finished) := by
      cases hv : cs.getD i CallState.finished with
      | notStarted => simp [stepCall, h1]
      | fetching => exact absurd hv hs
      | finished => rfl
    simp only [runSchedule, hstep]
    apply ih
    · exact h1
    · intro s2 hs2
      rcases List.mem_or_eq_of_mem_set hs2 with h | h
      · exact h2 _ h
      · rw [h]
        decide

/-- Claim C4 counterexample: two callers that invoke `agentCard()` before the
first fetch resolves (schedule: both read the empty cache, then both fetches
resolve) issue two network fetches — the source keeps no pending-fetch token,
only the post-fetch cache write. -/
theorem concurrent_agentCard_double_fetch :
    (runSchedule (Json.obj [("capabilities", Json.obj [("streaming", Json.bool true)])])
        { cache := none, fetchCount := 0 }
        [CallState.notStarted, CallState.notStarted] [0, 1, 0, 1]).1.fetchCount = 2 ∧
    (2 : Nat) ≠ 1 :=
  ⟨rfl, by decide⟩

/-- Claim C4 as amended: while the cache is empty and the fetch succeeds,
sequential (non-overlapping) calls to `agentCard()` perform exactly one
underlying fetch across any number of calls; only callers that overlap the
first in-flight fetch can issue duplicates, because the cache is the sole
coordination state. -/
theorem agentCard_sequential_single_fetch (card : Json) (n : Nat) (h : 1 ≤ n) :
    (runSchedule card { cache := none, fetchCount := 0 }
      (List.replicate n CallState.notStarted) (seqFrom 0 n)).1.fetchCount = 1 := by
  obtain ⟨m, rfl⟩ : ∃ m, n = m + 1 := ⟨n - 1, by omega⟩
  rw [List.replicate_succ]
  simp only [seqFrom, runSchedule]
  have hget : (CallState.notStarted :: List.replicate m CallState.notStarted).getD 0
      CallState.finished = CallState.notStarted := by
    simp [List.getD]
  rw [hget]
  simp only [stepCall, List.set_cons_zero]
  have hget2 : (CallState.fetching :: List.replicate m CallState.notStarted).getD 0
      CallState.finished = CallState.fetching := by
    simp [List.getD]
  rw [hget2]
  simp only [stepCall, List.set_cons_zero]
  rw [runSchedule_cached card (seqFrom 1 m) _ _ rfl]
  · intro s hs
    rcases List.mem_cons.mp hs with h2 | h2
    · rw [h2]
      decide
    · rw [List.eq_of_mem_replicate h2]
      decide

/-- Witness for the amended C4: three sequential calls issue one fetch. -/
theorem agentCard_sequential_single_fetch_witness :
    1 ≤ 3 ∧
    (runSchedule (Json.obj [("capabilities", Json.obj [("streaming", Json.bool true)])])
        { cache := none, fetchCount := 0 }
        (List.replicate 3 CallState.notStarted) (seqFrom 0 3)).1.fetchCount = 1 :=
  ⟨by decide,
   agentCard_sequential_single_fetch
     (Json.obj [("capabilities", Json.obj [("streaming", Json.bool true)])]) 3 (by decide)⟩

/-- Claim C5 counterexample: under the `Date.now()` fallback two distinct
calls made within the same millisecond (the clock reads the same value at
both) receive equal request identifiers. -/
theorem fallback_ids_collide_same_millisecond :
    generateRequestId false (fun _ => "") (fun _ => 1730000000000) 0 =
      generateRequestId false (fun _ => "") (fun _ => 1730000000000) 1 ∧
    (0 : Nat) ≠ 1 :=
  ⟨rfl, by decide⟩

/-- Claim C5 as amended: each call generates a fresh identifier, and
identifiers of distinct calls differ whenever the random token source yields
distinct tokens (the guarantee `crypto.randomUUID` provides) or, under the
`Date.now()` fallback, whenever the two calls observe different millisecond
timestamps; fallback calls within the same millisecond may collide. -/
theorem distinct_tokens_give_distinct_ids (randomUUID : Nat → String)
    (dateNow : Nat → Nat) (j k : Nat) :
    (randomUUID j ≠ randomUUID k →
      generateRequestId true randomUUID dateNow j ≠
        generateRequestId true randomUUID dateNow k) ∧
    (dateNow j ≠ dateNow k →
      generateRequestId false randomUUID dateNow j ≠
        generateRequestId false randomUUID dateNow k) := by
  constructor
  · intro h he
    simp only [generateRequestId, if_pos] at he
    exact h (by injection he)
  · intro h he
    simp only [generateRequestId, Bool.false_eq_true, if_neg] at he
    exact h (by injection he)

/-- Witness for the amended C5 at distinct tokens and distinct timestamps. -/
theorem distinct_tokens_give_distinct_ids_witness :
    generateRequestId true (fun n => toString n) (fun n => n) 0 ≠
      generateRequestId true (fun n => toString n) (fun n => n) 1 ∧
    generateRequestId false (fun n => toString n) (fun n => n) 0 ≠
      generateRequestId false (fun n => toString n) (fun n => n) 1 :=
  ⟨(distinct_tokens_give_distinct_ids (fun n => toString n) (fun n => n) 0 1).1 (by decide),
   (distinct_tokens_give_distinct_ids (fun n => toString n) (fun n => n) 0 1).2 (by decide)⟩

/-- Claim C8: `supports(capability)` never fails — for every capability
argument it resolves with a boolean, and whenever the agent-descriptor fetch
failed it resolves with `false` instead of propagating the error. -/
theorem supports_never_fails (agentCardResult : Except RpcErr Json) (capability : String) :
    (∃ b, supports agentCardResult capability = Except.ok b) ∧
    (∀ e, agentCardResult = Except.error e →
      supports agentCardResult capability = Except.ok false) := by
  cases agentCardResult with
  | error e => exact ⟨⟨false, rfl⟩, fun e2 h => rfl⟩
  | ok card =>
    constructor
    · by_cases h1 : (capability == "streaming") = true
      · exact ⟨capFlag card "streaming", by simp [supports, h1]⟩
      · by_cases h2 : (capability == "pushNotifications") = true
        · exact ⟨capFlag card "pushNotifications", by simp [supports, h1, h2]⟩
        · exact ⟨false, by simp [supports, h1, h2]⟩
    · intro e2 h
      exact Except.noConfusion h

/-- Witness for C8: a failed descriptor fetch makes `supports("streaming")`
resolve with `false`. -/
theorem supports_never_fails_witness :
    supports (Except.error { code := -32603, message := "Could not retrieve agent card" })
        "streaming" = Except.ok false :=
  (supports_never_fails
    (Except.error { code := -32603, message := "Could not retrieve agent card" })
    "streaming").2 _ rfl

end A2A

namespace Wallet

/-- Claim C9: every call to `signAndExecuteTransaction` or
`signAndExecuteSuiTransaction` made while the wallet is not connected
(`isConnected` false or `address` null) fails with `Wallet not connected`
and produces no effects: no order routing, no transaction build, no device
interaction. -/
theorem disconnected_wallet_guard (w : WalletState) (td : TransactionData)
    (routesFound : Bool) (signResult : Option String) (actions : List TransferAction)
    (signResult2 : Option String)
    (h : w.isConnected = false ∨ w.address = none) :
    signAndExecuteTransaction w td routesFound signResult =
      (Except.error "Wallet not connected", []) ∧
    signAndExecuteSuiTransaction w actions signResult2 =
      (Except.error "Wallet not connected", []) := by
  have hguard : (w.isConnected && fieldTruthy w.address) = false := by
    rcases h with h | h
    · simp [h]
    · simp [h, fieldTruthy]
  constructor
  · unfold signAndExecuteTransaction
    rw [hguard]
    rfl
  · unfold signAndExecuteSuiTransaction
    rw [hguard]
    rfl

/-- Witness for C9: a disconnected wallet rejects both calls untouched. -/
theorem disconnected_wallet_guard_witness :
    ({ isConnected := false, address := some "0xabc123", connectId := some "c1",
       deviceId := some "d1" } : WalletState).isConnected = false ∧
    signAndExecuteTransaction
        { isConnected := false, address := some "0xabc123", connectId := some "c1",
          deviceId := some "d1" }
        { transactionType := "buy", pair := "SUI/USDC", poolId := "pool-1", amount := "10",
          baseCoinId := "0x2::sui::SUI", quoteCoinId := "0x..::usdc::USDC" }
        true (some "sig") = (Except.error "Wallet not connected", []) ∧
    signAndExecuteSuiTransaction
        { isConnected := false, address := some "0xabc123", connectId := some "c1",
          deviceId := some "d1" }
        [{ action := "transfer", amount := "1.5", recipient := "0xdef" }]
        (some "sig") = (Except.error "Wallet not connected", []) :=
  ⟨rfl,
   (disconnected_wallet_guard
     { isConnected := false, address := some "0xabc123", connectId := some "c1",
       deviceId := some "d1" }
     { transactionType := "buy", pair := "SUI/USDC", poolId := "pool-1", amount := "10",
       baseCoinId := "0x2::sui::SUI", quoteCoinId := "0x..::usdc::USDC" }
     true (some "sig")
     [{ action := "transfer", amount := "1.5", recipient := "0xdef" }]
     (some "sig") (Or.inl rfl)).1,
   (disconnected_wallet_guard
     { isConnected := false, address := some "0xabc123", connectId := some "c1",
       deviceId := some "d1" }
     { transactionType := "buy", pair := "SUI/USDC", poolId := "pool-1", amount := "10",
       baseCoinId := "0x2::sui::SUI", quoteCoinId := "0x..::usdc::USDC" }
     true (some "sig")
     [{ action := "transfer", amount := "1.5", recipient := "0xdef" }]
     (some "sig") (Or.inl rfl)).2⟩

end Wallet

namespace Trading

/-- Claim C10: for every trading pair present in the fetched market data,
`analyzeTradingPair` returns a score that is an integer between 0 and 10
inclusive (the rounded weighted raw score clamped to that range), and the
returned `transactionData.transactionType` is `buy` exactly when that score
is at least 5, `sell` otherwise. -/
theorem analyze_score_bounds_and_side (pairs : List (String × PairData)) (pair : String)
    (pd : PairData) (h : lookupPair pairs pair = some pd) :
    ∃ r, analyzeTradingPair pairs pair = Except.ok r ∧
      0 ≤ r.score ∧ r.score ≤ 10 ∧
      (r.transactionData.transactionType = "buy" ↔ 5 ≤ r.score) := by
  unfold analyzeTradingPair
  rw [h]
  refine ⟨_, rfl, ?_, ?_, ?_⟩
  · show (0 : ℤ) ≤ scoreOf pd
    unfold scoreOf
    omega
  · show scoreOf pd ≤ 10
    unfold scoreOf
    omega
  · show (if scoreOf pd ≥ 5 then "buy" else "sell") = "buy" ↔ 5 ≤ scoreOf pd
    by_cases h5 : 5 ≤ scoreOf pd
    · simp [ge_iff_le, h5]
    · rw [if_neg (by simpa [ge_iff_le] using h5)]
      constructor
      · intro hs
        exact absurd hs (by decide)
      · intro hs
        exact absurd hs h5

/-- Witness for C10 at a concrete fetched pair. -/
theorem analyze_score_bounds_and_side_witness :
    lookupPair
        [("SUI/USDC",
          { price := 1.2, volume24h := 20000000, marketCap := 24000000, change24h := 4.5,
            volatility := 0.045, liquidity := 0.8, poolId := "pool-1", poolName := "SUI_USDC",
            baseCoinId := "0x2::sui::SUI", quoteCoinId := "0x..::usdc::USDC" })]
        "SUI/USDC" =
      some
        { price := 1.2, volume24h := 20000000, marketCap := 24000000, change24h := 4.5,
          volatility := 0.045, liquidity := 0.8, poolId := "pool-1", poolName := "SUI_USDC",
          baseCoinId := "0x2::sui::SUI", quoteCoinId := "0x..::usdc::USDC" } ∧
    ∃ r, analyzeTradingPair
        [("SUI/USDC",
          { price := 1.2, volume24h := 20000000, marketCap := 24000000, change24h := 4.5,
            volatility := 0.045, liquidity := 0.8, poolId := "pool-1", poolName := "SUI_USDC",
            baseCoinId := "0x2::sui::SUI", quoteCoinId := "0x..::usdc::USDC" })]
        "SUI/USDC" = Except.ok r ∧
      0 ≤ r.score ∧ r.score ≤ 10 ∧
      (r.transactionData.transactionType = "buy" ↔ 5 ≤ r.score) :=
  ⟨rfl,
   analyze_score_bounds_and_side _ "SUI/USDC"
     { price := 1.2, volume24h := 20000000, marketCap := 24000000, change24h := 4.5,
       volatility := 0.045, liquidity := 0.8, poolId := "pool-1", poolName := "SUI_USDC",
       baseCoinId := "0x2::sui::SUI", quoteCoinId := "0x..::usdc::USDC" } rfl⟩

end Trading
